import Mathlib

/-!
Verification of the gz3d browser-side visualization client (SceneManager,
plus the FuelServer-style helpers getDescendants and binaryToBase64).

The embedding below translates the TypeScript source into Lean: JSON model
objects become records (fields the code never inspects are abstracted as an
opaque `payload` string), the mutable `SceneManager` instance becomes an
explicit state record `SMState`, calls into the external `Transport`
collaborator are recorded as a trace of `TransportCall` values, and the
rxjs event handlers become state-transition functions combined by `step`.
The external collaborators `Scene` and `SDFParser` are not part of the
included source; where their behavior matters it is modelled from the spec
and the source's own comments, and marked as such.
-/

namespace Gz3d

/-- A 3D vector as carried in pose messages.  The code never computes with
coordinates, it only stores and forwards them, so the numeric carrier is
immaterial; we use `Int`. -/
structure Vec3 where
  x : Int
  y : Int
  z : Int
deriving DecidableEq, Repr

/-- A quaternion orientation as carried in pose messages; stored verbatim,
never computed with. -/
structure Quat where
  x : Int
  y : Int
  z : Int
  w : Int
deriving DecidableEq, Repr

/-- A pose: position plus orientation. -/
structure Pose where
  position : Vec3
  orientation : Quat
deriving DecidableEq, Repr

/-- A model entry of the `models` array of SceneManager.  The code reads
`name` and writes `id` and `gz3dName`; every other JSON field of the
incoming model object is untouched and is abstracted as `payload`. -/
structure Model where
  name : String
  id : Nat
  gz3dName : Option String
  payload : String
deriving DecidableEq, Repr

/-- A light entry of a scene-info message; the code only forwards it to
`sdfParser.spawnLight`, so only an identifying name is kept. -/
structure Light where
  name : String
deriving DecidableEq, Repr

/-- A scene-info message (`sceneInfo$` payload or `scene/info` topic
payload): a list of models and a list of lights.  The `sky` and `ambient`
fields only drive calls on the external `Scene` renderer (addSky,
ambient.color) and are outside the state the claims concern. -/
structure SceneInfoMsg where
  models : List Model
  lights : List Light
deriving DecidableEq, Repr

/-- An object held by the external `Scene`: rendered entities addressed by
name, carrying a pose. -/
structure Entity where
  name : String
  pose : Pose
deriving DecidableEq, Repr

/-- One entry of a `dynamic_pose/info` message: an entity name with a new
position and orientation. -/
structure PoseEntry where
  name : String
  position : Vec3
  orientation : Quat
deriving DecidableEq, Repr

/-- Payload of a `requestService` call made by play, pause and stop. -/
inductive ServicePayload where
  | pauseMsg (value : Bool)
  | stopMsg (value : Bool)
deriving DecidableEq, Repr

/-- A call made on the external `Transport` collaborator, recorded in a
trace. -/
inductive TransportCall where
  | connect (url : String) (key : Option String)
  | disconnect
  | requestService (service : String) (msgType : String) (payload : ServicePayload)
  | subscribe (topicName : String)
  | advertise (topic : String) (msgType : String)
deriving DecidableEq, Repr

/-- Modelled from the spec: `sdfParser.spawnFromObj` and
`sdfParser.spawnLight` belong to the external SDF-to-scene-graph parser,
which is not in the included source.  A `Spawner` abstracts the two
spawning functions; theorems quantify over it. -/
structure Spawner where
  spawnFromObj : Model → Entity
  spawnLight : Light → Entity

/-- The state of a `SceneManager` instance: its fields (connectionStatus,
sceneInfo, models), the content of the external scene, whether the
requestAnimationFrame loop is running, which rxjs subscriptions are
installed, and the trace of Transport calls made so far.  `world` models
`transport.getWorld()`. -/
structure SMState where
  world : String
  connectionStatus : String
  sceneInfo : Option SceneInfoMsg
  models : List Model
  sceneEntities : List Entity
  running : Bool
  sceneSetup : Bool
  statusSubscribed : Bool
  sceneInfoSubscribed : Bool
  topicsSubscribed : Bool
  advertiseCfg : Option (String × String)
  transportCalls : List TransportCall
deriving DecidableEq, Repr

/-- The state of a freshly constructed SceneManager (no websocketUrl in the
config): `connectionStatus` is initialized to 'disconnected', `models` to
the empty array, and nothing is subscribed or running. -/
def initialState (world : String) : SMState :=
  { world := world
    connectionStatus := "disconnected"
    sceneInfo := none
    models := []
    sceneEntities := []
    running := false
    sceneSetup := false
    statusSubscribed := false
    sceneInfoSubscribed := false
    topicsSubscribed := false
    advertiseCfg := none
    transportCalls := [] }

/-- The loop body of `getModelIndex`: scan the remaining models, `i` being
the index of the head in the original array; return the index of the first
entry whose `name` matches, or -1 when the scan falls off the end. -/
def getModelIndexFrom : List Model → String → Nat → Int
  | [], _, _ => -1
  | m :: rest, name, i =>
    if m.name = name then Int.ofNat i else getModelIndexFrom rest name (i + 1)

/-- `getModelIndex` (SceneManager): linear scan of `models` for the first
entry with the given `name`; -1 when absent. -/
def getModelIndex (models : List Model) (name : String) : Int :=
  getModelIndexFrom models name 0

/-- `getModels`: return the list of models in the scene. -/
def getModels (st : SMState) : List Model :=
  st.models

/-- `getConnectionStatus`: return the current connection status. -/
def getConnectionStatus (st : SMState) : String :=
  st.connectionStatus

/-- `getConnectionStatusAsObservable`: map the transport's status stream to
booleans with `status === 'ready'`.  The rxjs observable is embedded as the
list of statuses it emits; `map` emits one output per input. -/
def getConnectionStatusAsObservable (statuses : List String) : List Bool :=
  statuses.map (fun status => status == "ready")

/-- `connect` (SceneManager): delegate to `transport.connect(url, key)` and
install the status and sceneInfo subscriptions whose handlers are
`onStatus` and `handleSceneInfoMsg` below. -/
def connect (st : SMState) (url : String) (key : Option String) : SMState :=
  { st with
    transportCalls := st.transportCalls ++ [.connect url key]
    statusSubscribed := true
    sceneInfoSubscribed := true }

/-- `disconnect` (SceneManager): delegate to `transport.disconnect`, reset
`sceneInfo` to an empty object (embedded as `none`) and `connectionStatus`
to 'disconnected', and unsubscribe the observables.  The `models` array is
not touched.  (Removing the renderer's DOM canvas is a browser-side effect
outside the embedded state.) -/
def disconnect (st : SMState) : SMState :=
  { st with
    transportCalls := st.transportCalls ++ [.disconnect]
    sceneInfo := none
    connectionStatus := "disconnected"
    statusSubscribed := false
    sceneInfoSubscribed := false
    topicsSubscribed := false }

/-- `play`: request the world control service with pause false. -/
def play (st : SMState) : SMState :=
  { st with
    transportCalls := st.transportCalls ++
      [.requestService ("/world/" ++ st.world ++ "/control")
        "ignition.msgs.WorldControl" (.pauseMsg false)] }

/-- `pause`: request the world control service with pause true. -/
def pause (st : SMState) : SMState :=
  { st with
    transportCalls := st.transportCalls ++
      [.requestService ("/world/" ++ st.world ++ "/control")
        "ignition.msgs.WorldControl" (.pauseMsg true)] }

/-- `stop`: request the '/server_control' service with stop true. -/
def stop (st : SMState) : SMState :=
  { st with
    transportCalls := st.transportCalls ++
      [.requestService "/server_control"
        "ignition.msgs.ServerControl" (.stopMsg true)] }

/-- The names of the public methods of the SceneManager class, in source
order. -/
def sceneManagerPublicMethods : List String :=
  ["destroy", "getConnectionStatus", "getConnectionStatusAsObservable",
   "resize", "snapshot", "resetView", "follow", "thirdPersonFollow",
   "firstPerson", "moveTo", "select", "publish", "getModels", "disconnect",
   "connect", "advertise", "subscribeToTopic", "unsubscribeFromTopic",
   "play", "pause", "stop"]

/-- `setIdAt models i v`: the in-place assignment
`models[i]['id'] = v` of the scene/info topic handler. -/
def setIdAt : List Model → Nat → Nat → List Model
  | [], _, _ => []
  | m :: rest, 0, v => { m with id := v } :: rest
  | m :: rest, i + 1, v => m :: setIdAt rest i v

/-- Body of the `forEach` of the `scene/info` topic handler: look the model
up by name; when absent, spawn an object, push the model and add the object
to the scene; when present, update the existing entry's id. -/
def processSceneTopicModel (sp : Spawner) (st : SMState) (model : Model) :
    SMState :=
  let foundIndex := getModelIndex st.models model.name
  if foundIndex < 0 then
    { st with
      models := st.models ++ [model]
      sceneEntities := st.sceneEntities ++ [sp.spawnFromObj model] }
  else
    { st with models := setIdAt st.models foundIndex.toNat model.id }

/-- The `scene/info` topic handler: ignore a null message, otherwise
process each model of the message in order. -/
def handleSceneTopicMsg (sp : Spawner) (st : SMState) :
    Option SceneInfoMsg → SMState
  | none => st
  | some info => info.models.foldl (processSceneTopicModel sp) st

/-- The `sceneInfo$` handler installed by `connect`: ignore a null message;
otherwise store the scene info, start the render loop, then for each model
of the message spawn an object, set the model's gz3dName to the spawned
object's name, push the model unconditionally and add the object to the
scene; finally spawn and add each light.  (The sky and ambient-color
branches only call the external renderer.) -/
def handleSceneInfoMsg (sp : Spawner) (st : SMState)
    (msg : Option SceneInfoMsg) : SMState :=
  match msg with
  | none => st
  | some info =>
    { st with
      sceneInfo := some info
      running := true
      models := st.models ++
        info.models.map (fun m => { m with gz3dName := some (sp.spawnFromObj m).name })
      sceneEntities := st.sceneEntities ++
        info.models.map sp.spawnFromObj ++ info.lights.map sp.spawnLight }

/-- Modelled from the spec: `scene.getByName` of the external retained-mode
scene graph returns the first entity in the scene with the given name (or
nothing). -/
def getByName (entities : List Entity) (name : String) : Option Entity :=
  entities.find? (fun e => e.name == name)

/-- Modelled from the spec: `scene.setPose(entity, position, orientation)`
of the external scene stores the given position and orientation on that
entity; in the list embedding it updates the first entity with the given
name (the one `getByName` returned). -/
def setPoseFirst : List Entity → String → Vec3 → Quat → List Entity
  | [], _, _, _ => []
  | e :: rest, n, p, q =>
    if e.name = n then { e with pose := ⟨p, q⟩ } :: rest
    else e :: setPoseFirst rest n p q

/-- Body of the `forEach` of the `dynamic_pose/info` topic handler: find
the entity by name; when found, set its pose; otherwise only warn. -/
def processPoseEntry (st : SMState) (entry : PoseEntry) : SMState :=
  match getByName st.sceneEntities entry.name with
  | some _ =>
    { st with
      sceneEntities :=
        setPoseFirst st.sceneEntities entry.name entry.position entry.orientation }
  | none => st

/-- The `dynamic_pose/info` topic handler: process each pose entry of the
message in order. -/
def handlePoseMsg (st : SMState) (msg : List PoseEntry) : SMState :=
  msg.foldl processPoseEntry st

/-- The connection-status handler installed by `connect`: store the status;
on 'connected' set up the visualization (scene construction, an external
effect recorded as `sceneSetup`); on 'ready' subscribe to the pose and
scene topics (`subscribeToTopics`) and advertise the configured topic when
one was given. -/
def onStatus (st : SMState) (response : String) : SMState :=
  let st1 := { st with connectionStatus := response }
  let st2 := if response = "connected" then { st1 with sceneSetup := true } else st1
  if response = "ready" then
    let st3 :=
      { st2 with
        transportCalls := st2.transportCalls ++
          [.subscribe ("/world/" ++ st.world ++ "/dynamic_pose/info"),
           .subscribe ("/world/" ++ st.world ++ "/scene/info")]
        topicsSubscribed := true }
    match st.advertiseCfg with
    | some (t, m) =>
      { st3 with transportCalls := st3.transportCalls ++ [.advertise t m] }
    | none => st3
  else st2

/-- An external event delivered to the SceneManager: a method call from the
client, or a message arriving over the websocket. -/
inductive Action where
  | connectAct (url : String) (key : Option String)
  | disconnectAct
  | statusMsg (response : String)
  | sceneInfoMsg (msg : Option SceneInfoMsg)
  | sceneTopicMsg (msg : Option SceneInfoMsg)
  | poseTopicMsg (msg : List PoseEntry)
deriving DecidableEq, Repr

/-- One step of the event-driven system: a handler only runs while its
subscription is installed. -/
def step (sp : Spawner) (st : SMState) : Action → SMState
  | .connectAct url key => connect st url key
  | .disconnectAct => disconnect st
  | .statusMsg r => if st.statusSubscribed then onStatus st r else st
  | .sceneInfoMsg m =>
    if st.sceneInfoSubscribed then handleSceneInfoMsg sp st m else st
  | .sceneTopicMsg m =>
    if st.topicsSubscribed then handleSceneTopicMsg sp st m else st
  | .poseTopicMsg m =>
    if st.topicsSubscribed then handlePoseMsg st m else st

/-- Run a sequence of events from a state. -/
def runTrace (sp : Spawner) (st : SMState) (as : List Action) : SMState :=
  as.foldl (step sp) st

/-- A concrete spawner, for witnesses.  Modelled from the spec: the source
comments that objects created by Gz3D have a unique name, the model name
plus the id. -/
def defaultSpawner : Spawner where
  spawnFromObj := fun m =>
    { name := m.name ++ toString m.id, pose := ⟨⟨0, 0, 0⟩, ⟨0, 0, 0, 1⟩⟩ }
  spawnLight := fun l => { name := l.name, pose := ⟨⟨0, 0, 0⟩, ⟨0, 0, 0, 1⟩⟩ }

/-- The base64 alphabet used by `window.btoa` (RFC 4648). -/
def b64Alphabet : List Char :=
  "ABCDEFGHIJKLMNOPQRSTUVWXYZabcdefghijklmnopqrstuvwxyz0123456789+/".toList

/-- The base64 character of a sextet. -/
def chr64 (s : Nat) : Char :=
  b64Alphabet.getD s 'A'

/-- The sextet of a base64 character, if any. -/
def idx64 (c : Char) : Option Nat :=
  b64Alphabet.findIdx? (fun a => a == c)

/-- Base64-encode a byte sequence: the behavior of `window.btoa`, the
browser's standard RFC 4648 base64 encoder, on a string whose char codes
are the bytes.  Groups of three bytes become four sextet characters; a
final group of one or two bytes is padded with '=' characters. -/
def b64EncodeBytes : List Nat → List Char
  | [] => []
  | [b0] => [chr64 (b0 / 4), chr64 (b0 % 4 * 16), '=', '=']
  | [b0, b1] =>
    [chr64 (b0 / 4), chr64 (b0 % 4 * 16 + b1 / 16), chr64 (b1 % 16 * 4), '=']
  | b0 :: b1 :: b2 :: rest =>
    chr64 (b0 / 4) :: chr64 (b0 % 4 * 16 + b1 / 16) ::
      chr64 (b1 % 16 * 4 + b2 / 64) :: chr64 (b2 % 64) :: b64EncodeBytes rest

/-- `binaryToBase64` (Globals helper): build the binary string whose char
codes are the bytes of the buffer and apply `window.btoa` to it; the
composition base64-encodes exactly the buffer's bytes in order. -/
def binaryToBase64 (buffer : List Nat) : String :=
  String.mk (b64EncodeBytes buffer)

/-- Standard base64 decoding of a character sequence: the inverse used to
state the round-trip property.  Returns `none` on strings that are not
well-formed base64. -/
def b64DecodeChars : List Char → Option (List Nat)
  | [] => some []
  | c0 :: c1 :: c2 :: c3 :: rest =>
    match idx64 c0, idx64 c1 with
    | some s0, some s1 =>
      if c2 = '=' then
        if c3 = '=' ∧ rest = [] then some [s0 * 4 + s1 / 16] else none
      else
        match idx64 c2 with
        | some s2 =>
          if c3 = '=' then
            if rest = [] then some [s0 * 4 + s1 / 16, s1 % 16 * 16 + s2 / 4]
            else none
          else
            match idx64 c3 with
            | some s3 =>
              match b64DecodeChars rest with
              | some bs =>
                some ((s0 * 4 + s1 / 16) :: (s1 % 16 * 16 + s2 / 4) ::
                  (s2 % 4 * 64 + s3) :: bs)
              | none => none
            | none => none
        | none => none
    | _, _ => none
  | _ => none

/-- Standard base64 decoding of a string. -/
def base64Decode (s : String) : Option (List Nat) :=
  b64DecodeChars s.data

/-- A ThreeJS `Object3D` as far as `getDescendants` observes it: a node
with a name and a list of children. -/
inductive Obj3D where
  | node (name : String) (children : List Obj3D)

mutual

/-- Decidable equality of objects (hand-rolled: automatic derivation does
not support the nested list of children). -/
def obj3dDecEq : (a b : Obj3D) → Decidable (a = b)
  | .node n1 cs1, .node n2 cs2 =>
    match String.decEq n1 n2 with
    | isFalse h =>
      isFalse (fun hc => by injection hc with e1 e2; exact h e1)
    | isTrue h1 =>
      match obj3dListDecEq cs1 cs2 with
      | isTrue h2 => isTrue (by rw [h1, h2])
      | isFalse h2 =>
        isFalse (fun hc => by injection hc with e1 e2; exact h2 e2)

/-- Decidable equality of lists of objects. -/
def obj3dListDecEq : (a b : List Obj3D) → Decidable (a = b)
  | [], [] => isTrue rfl
  | [], _ :: _ => isFalse (fun hc => List.noConfusion hc)
  | _ :: _, [] => isFalse (fun hc => List.noConfusion hc)
  | c1 :: cs1, c2 :: cs2 =>
    match obj3dDecEq c1 c2 with
    | isFalse h1 =>
      isFalse (fun hc => by injection hc with e1 e2; exact h1 e1)
    | isTrue h1 =>
      match obj3dListDecEq cs1 cs2 with
      | isTrue h2 => isTrue (by rw [h1, h2])
      | isFalse h2 =>
        isFalse (fun hc => by injection hc with e1 e2; exact h2 e2)

end

instance : DecidableEq Obj3D := obj3dDecEq

mutual

/-- `Object3D.traverse` of ThreeJS visits the object itself and then every
node of each child's subtree, depth first; this is the list of visited
nodes in visit order. -/
def Obj3D.traverseList : Obj3D → List Obj3D
  | .node n cs => .node n cs :: traverseAll cs

/-- The concatenated traversals of a list of objects. -/
def traverseAll : List Obj3D → List Obj3D
  | [] => []
  | c :: cs => Obj3D.traverseList c ++ traverseAll cs

end

/-- `getDescendants` (Globals helper): traverse the object, pushing every
visited node other than the object itself onto the array (which defaults to
[] at the call site). -/
def getDescendants (obj : Obj3D) (array : List Obj3D) : List Obj3D :=
  (Obj3D.traverseList obj).foldl
    (fun acc child => if child ≠ obj then acc ++ [child] else acc) array

/-- The proper descendants of an object: every node of its subtree except
the object itself, in traversal order. -/
def properDescendants : Obj3D → List Obj3D
  | .node _ cs => traverseAll cs

mutual

/-- Number of nodes of a subtree. -/
def Obj3D.size : Obj3D → Nat
  | .node _ cs => 1 + sizeAllObjs cs

/-- Total number of nodes of a list of subtrees. -/
def sizeAllObjs : List Obj3D → Nat
  | [] => 0
  | c :: cs => Obj3D.size c + sizeAllObjs cs

end

/-!  ## Theorems  -/

theorem getModelIndexFrom_eq_neg_one_iff (models : List Model) (name : String)
    (i : Nat) :
    getModelIndexFrom models name i = -1 ↔ ∀ m ∈ models, m.name ≠ name := by
  induction models generalizing i with
  | nil => simp [getModelIndexFrom]
  | cons m rest ih =>
    by_cases h : m.name = name
    · simp [getModelIndexFrom, h]
    · simp only [getModelIndexFrom, h, if_false, List.mem_cons]
      constructor
      · intro hrec m2 hm2
        rcases hm2 with hm2 | hm2
        · subst hm2; exact h
        · exact (ih (i + 1)).mp hrec m2 hm2
      · intro hall
        exact (ih (i + 1)).mpr (fun m2 hm2 => hall m2 (Or.inr hm2))

theorem getModelIndexFrom_eq_ofNat (models : List Model) (name : String) :
    ∀ i j : Nat, getModelIndexFrom models name i = Int.ofNat j →
      i ≤ j ∧ (∃ m, models[j - i]? = some m ∧ m.name = name) ∧
        ∀ k, i ≤ k → k < j → ∀ m2, models[k - i]? = some m2 → m2.name ≠ name := by
  induction models with
  | nil => intro i j h; simp [getModelIndexFrom] at h
  | cons m rest ih =>
    intro i j h
    by_cases hname : m.name = name
    · simp only [getModelIndexFrom, hname, if_true, Int.ofNat.injEq] at h
      subst h
      refine ⟨le_refl i, ⟨m, by simp, hname⟩, ?_⟩
      intro k hk1 hk2 _ _
      omega
    · simp only [getModelIndexFrom, hname, if_false] at h
      obtain ⟨hle, ⟨m2, hget, hm2⟩, hfirst⟩ := ih (i + 1) j h
      refine ⟨by omega, ⟨m2, ?_, hm2⟩, ?_⟩
      · have : j - i = (j - (i + 1)) + 1 := by omega
        rw [this]
        simpa using hget
      · intro k hk1 hk2 m3 hm3
        by_cases hk : k = i
        · subst hk
          simp at hm3
          subst hm3
          exact hname
        · have hk1' : i + 1 ≤ k := by omega
          have : k - i = (k - (i + 1)) + 1 := by omega
          rw [this] at hm3
          simp at hm3
          exact hfirst k hk1' hk2 m3 hm3

theorem getModelIndexFrom_of_first (models : List Model) (name : String) :
    ∀ i j : Nat, ∀ m, models[j]? = some m → m.name = name →
      (∀ k, k < j → ∀ m2, models[k]? = some m2 → m2.name ≠ name) →
      getModelIndexFrom models name i = Int.ofNat (i + j) := by
  induction models with
  | nil => intro i j m h; simp at h
  | cons hd rest ih =>
    intro i j m hget hname hfirst
    cases j with
    | zero =>
      simp at hget
      subst hget
      simp [getModelIndexFrom, hname]
    | succ j2 =>
      have hhd : hd.name ≠ name := by
        have := hfirst 0 (by omega) hd (by simp)
        exact this
      simp only [getModelIndexFrom, hhd, if_false]
      simp only [List.getElem?_cons_succ] at hget
      have hrest : ∀ k, k < j2 → ∀ m2, rest[k]? = some m2 → m2.name ≠ name := by
        intro k hk m2 hm2
        have := hfirst (k + 1) (by omega) m2 (by simpa using hm2)
        exact this
      have := ih (i + 1) j2 m hget hname hrest
      rw [this]
      congr 1
      omega

theorem getModelIndexFrom_nonneg_of_mem (models : List Model) (name : String)
    (i : Nat) (m : Model) (hm : m ∈ models) (hname : m.name = name) :
    ∃ j : Nat, getModelIndexFrom models name i = Int.ofNat j := by
  induction models generalizing i with
  | nil => simp at hm
  | cons hd rest ih =>
    by_cases h : hd.name = name
    · exact ⟨i, by simp [getModelIndexFrom, h]⟩
    · rcases List.mem_cons.mp hm with hm | hm
      · subst hm; exact absurd hname h
      · simpa [getModelIndexFrom, h] using ih (i + 1) hm

/-- C1: `getModelIndex` is a linear scan returning the smallest index whose
entry has the given name, and -1 when no entry (in particular on the empty
list) has that name. -/
theorem getModelIndex_linear_scan (models : List Model) (name : String) :
    (getModelIndex models name = -1 ↔ ∀ m ∈ models, m.name ≠ name)
    ∧ (∀ j : Nat, getModelIndex models name = Int.ofNat j →
        (∃ m, models[j]? = some m ∧ m.name = name) ∧
          ∀ k, k < j → ∀ m2, models[k]? = some m2 → m2.name ≠ name)
    ∧ ((∃ m ∈ models, m.name = name) →
        ∃ j : Nat, getModelIndex models name = Int.ofNat j)
    ∧ getModelIndex [] name = -1 := by
  refine ⟨getModelIndexFrom_eq_neg_one_iff models name 0, ?_, ?_, rfl⟩
  · intro j h
    obtain ⟨_, ⟨m, hget, hname⟩, hfirst⟩ :=
      getModelIndexFrom_eq_ofNat models name 0 j h
    refine ⟨⟨m, by simpa using hget, hname⟩, ?_⟩
    intro k hk m2 hm2
    exact hfirst k (by omega) hk m2 (by simpa using hm2)
  · rintro ⟨m, hm, hname⟩
    exact getModelIndexFrom_nonneg_of_mem models name 0 m hm hname

/-- Witness for C1 at a concrete list: the scan finds the first of two
entries named b at index 1. -/
theorem getModelIndex_linear_scan_witness :
    ∃ m, ([⟨"a", 1, none, ""⟩, ⟨"b", 2, none, ""⟩, ⟨"b", 3, none, ""⟩] :
        List Model)[1]? = some m ∧ m.name = "b" := by
  have h := (getModelIndex_linear_scan
      [⟨"a", 1, none, ""⟩, ⟨"b", 2, none, ""⟩, ⟨"b", 3, none, ""⟩] "b").2.1
  exact (h 1 (by decide)).1

/-- C5 counterexample: the SceneManager class has no method named start
(its public methods are listed in `sceneManagerPublicMethods`; the
simulation is started by `play`). -/
theorem no_start_method : "start" ∉ sceneManagerPublicMethods := by
  decide

/-- C5 (amended): the lifecycle interface consists of play, stop, connect
and disconnect (there is no method named start); stop requests the
'/server_control' service with stop true, play requests the world control
service with pause false, connect delegates to Transport.connect with the
given url and key, and disconnect delegates to Transport.disconnect. -/
theorem lifecycle_methods_spec (st : SMState) (url : String)
    (key : Option String) :
    "start" ∉ sceneManagerPublicMethods
    ∧ "play" ∈ sceneManagerPublicMethods
    ∧ "stop" ∈ sceneManagerPublicMethods
    ∧ "connect" ∈ sceneManagerPublicMethods
    ∧ "disconnect" ∈ sceneManagerPublicMethods
    ∧ (stop st).transportCalls = st.transportCalls ++
        [.requestService "/server_control" "ignition.msgs.ServerControl"
          (.stopMsg true)]
    ∧ (play st).transportCalls = st.transportCalls ++
        [.requestService ("/world/" ++ st.world ++ "/control")
          "ignition.msgs.WorldControl" (.pauseMsg false)]
    ∧ (connect st url key).transportCalls = st.transportCalls ++
        [.connect url key]
    ∧ (disconnect st).transportCalls = st.transportCalls ++ [.disconnect] :=
  ⟨by decide, by decide, by decide, by decide, by decide,
   rfl, rfl, rfl, rfl⟩

/-- Witness for C5 at a concrete state: stopping from the fresh state
records exactly the '/server_control' request. -/
theorem lifecycle_methods_spec_witness :
    (stop (initialState "w")).transportCalls =
      [TransportCall.requestService "/server_control"
        "ignition.msgs.ServerControl" (.stopMsg true)] := by
  have h := (lifecycle_methods_spec (initialState "w") "ws://x" none).2.2.2.2.2.1
  rw [h]
  rfl

/-- C6: after disconnect the connection status reads 'disconnected', the
stored scene information is reset to empty, and the models list is exactly
what it was before (no cache clearing or eviction). -/
theorem disconnect_resets_status_keeps_models (st : SMState) :
    getConnectionStatus (disconnect st) = "disconnected"
    ∧ (disconnect st).sceneInfo = none
    ∧ (disconnect st).models = st.models
    ∧ getModels (disconnect st) = getModels st :=
  ⟨rfl, rfl, rfl, rfl⟩

/-- C10: the observable returned by getConnectionStatusAsObservable emits
one boolean per status emission, true exactly for 'ready'; in particular
'connected', 'disconnected' and 'error' map to false. -/
theorem connectionStatusObservable_ready_map (statuses : List String) :
    (getConnectionStatusAsObservable statuses).length = statuses.length
    ∧ (∀ i : Nat, ∀ b : Bool,
        (getConnectionStatusAsObservable statuses)[i]? = some b →
          (b = true ↔ statuses[i]? = some "ready"))
    ∧ getConnectionStatusAsObservable
        ["connected", "disconnected", "error", "ready"] =
        [false, false, false, true] := by
  refine ⟨List.length_map _ _, ?_, by decide⟩
  intro i b h
  rw [getConnectionStatusAsObservable, List.getElem?_map] at h
  cases hs : statuses[i]? with
  | none => rw [hs] at h; simp at h
  | some s =>
    rw [hs] at h
    rw [Option.map_some'] at h
    injection h with hb
    subst hb
    simp [beq_iff_eq, hs]

/-- Witness for C10 at a concrete stream: the fourth emission, 'ready',
maps to true. -/
theorem connectionStatusObservable_ready_map_witness :
    (true = true ↔
      (["connected", "disconnected", "error", "ready"] :
        List String)[3]? = some "ready") := by
  have h := (connectionStatusObservable_ready_map
      ["connected", "disconnected", "error", "ready"]).2.1
  exact h 3 true (by decide)

/-- C4: name uniqueness of the models list is not enforced: the sceneInfo
handler installed by connect appends every incoming model unconditionally,
so a handled scene-info message carrying two models of the same name leaves
the models list with two entries of that name. -/
theorem models_duplicate_names_possible :
    ∃ (as : List Action) (i j : Nat) (mi mj : Model),
      i ≠ j
      ∧ (runTrace defaultSpawner (initialState "w") as).models[i]? = some mi
      ∧ (runTrace defaultSpawner (initialState "w") as).models[j]? = some mj
      ∧ mi.name = mj.name := by
  refine ⟨[.connectAct "ws://x" none,
           .sceneInfoMsg (some ⟨[⟨"box", 1, none, ""⟩, ⟨"box", 2, none, ""⟩], []⟩)],
          0, 1,
          ⟨"box", 1, some "box1", ""⟩, ⟨"box", 2, some "box2", ""⟩,
          by decide, by decide, by decide, rfl⟩

theorem setIdAt_getElem_self :
    ∀ (l : List Model) (j v : Nat) (m : Model),
      l[j]? = some m → (setIdAt l j v)[j]? = some { m with id := v } := by
  intro l
  induction l with
  | nil => intro j v m h; simp at h
  | cons hd rest ih =>
    intro j v m h
    cases j with
    | zero =>
      simp at h
      subst h
      simp [setIdAt]
    | succ j2 =>
      simp only [List.getElem?_cons_succ] at h
      simpa [setIdAt] using ih j2 v m h

theorem setIdAt_getElem_other :
    ∀ (l : List Model) (j v k : Nat), k ≠ j →
      (setIdAt l j v)[k]? = l[k]? := by
  intro l
  induction l with
  | nil => intro j v k _; simp [setIdAt]
  | cons hd rest ih =>
    intro j v k hk
    cases j with
    | zero =>
      cases k with
      | zero => exact absurd rfl hk
      | succ k2 => simp [setIdAt]
    | succ j2 =>
      cases k with
      | zero => simp [setIdAt]
      | succ k2 =>
        simpa [setIdAt] using ih j2 v k2 (by omega)

/-- C2: the scene/info topic handler upserts each model of the message: a
model whose name is absent from the models list is appended (and its
spawned object added to the scene); otherwise the first entry with that
name has only its id replaced, every other field and every other entry
being unchanged, and the scene is untouched. -/
theorem sceneTopic_handler_upsert (sp : Spawner) (st : SMState)
    (model : Model) :
    ((∀ m ∈ st.models, m.name ≠ model.name) →
      processSceneTopicModel sp st model =
        { st with
          models := st.models ++ [model]
          sceneEntities := st.sceneEntities ++ [sp.spawnFromObj model] })
    ∧ (∀ (j : Nat) (m : Model), st.models[j]? = some m →
        m.name = model.name →
        (∀ k, k < j → ∀ m2, st.models[k]? = some m2 →
          m2.name ≠ model.name) →
          (processSceneTopicModel sp st model).sceneEntities = st.sceneEntities
          ∧ (processSceneTopicModel sp st model).sceneInfo = st.sceneInfo
          ∧ (processSceneTopicModel sp st model).models[j]? =
              some { m with id := model.id }
          ∧ ∀ k, k ≠ j →
              (processSceneTopicModel sp st model).models[k]? = st.models[k]?)
    ∧ (∀ info, handleSceneTopicMsg sp st (some info) =
        info.models.foldl (processSceneTopicModel sp) st)
    ∧ handleSceneTopicMsg sp st none = st := by
  refine ⟨?_, ?_, fun info => rfl, rfl⟩
  · intro h
    have hidx : getModelIndex st.models model.name = -1 :=
      (getModelIndexFrom_eq_neg_one_iff st.models model.name 0).mpr h
    simp [processSceneTopicModel, hidx]
  · intro j m hget hname hfirst
    have hidx : getModelIndex st.models model.name = Int.ofNat j := by
      simpa using
        getModelIndexFrom_of_first st.models model.name 0 j m hget hname hfirst
    have hneg : ¬ getModelIndex st.models model.name < 0 := by
      rw [hidx]
      exact Int.not_lt.mpr (Int.ofNat_nonneg j)
    refine ⟨by simp [processSceneTopicModel, hneg], by simp [processSceneTopicModel, hneg], ?_, ?_⟩
    · simp only [processSceneTopicModel, hneg, if_false, hidx, Int.toNat_ofNat]
      exact setIdAt_getElem_self st.models j model.id m hget
    · intro k hk
      simp only [processSceneTopicModel, hneg, if_false, hidx, Int.toNat_ofNat]
      exact setIdAt_getElem_other st.models j model.id k hk

/-- Witness for C2 at a concrete state: a model absent from the fresh
(empty) models list is appended and its spawned object added to the
scene. -/
theorem sceneTopic_handler_upsert_witness :
    processSceneTopicModel defaultSpawner (initialState "w")
        ⟨"box", 5, none, ""⟩ =
      { initialState "w" with
        models := (initialState "w").models ++ [⟨"box", 5, none, ""⟩]
        sceneEntities := (initialState "w").sceneEntities ++
          [defaultSpawner.spawnFromObj ⟨"box", 5, none, ""⟩] } :=
  (sceneTopic_handler_upsert defaultSpawner (initialState "w")
    ⟨"box", 5, none, ""⟩).1 (by intro m hm; simp [initialState] at hm)

theorem find_setPoseFirst (n : String) (p : Vec3) (q : Quat) :
    ∀ (l : List Entity) (e : Entity),
      l.find? (fun x => x.name == n) = some e →
      ∃ j : Nat, l[j]? = some e
        ∧ (∀ k, k < j → ∀ e2, l[k]? = some e2 → e2.name ≠ n)
        ∧ (setPoseFirst l n p q)[j]? = some { e with pose := ⟨p, q⟩ }
        ∧ ∀ k, k ≠ j → (setPoseFirst l n p q)[k]? = l[k]? := by
  intro l
  induction l with
  | nil => intro e h; simp at h
  | cons hd rest ih =>
    intro e h
    by_cases hn : hd.name = n
    · rw [List.find?_cons_of_pos _ (by simpa using hn)] at h
      injection h with he
      subst he
      refine ⟨0, by simp, ?_, by simp [setPoseFirst, hn], ?_⟩
      · intro k hk
        exact absurd hk (Nat.not_lt_zero k)
      · intro k hk
        cases k with
        | zero => exact absurd rfl hk
        | succ k2 => simp [setPoseFirst, hn]
    · rw [List.find?_cons_of_neg _ (by simpa using hn)] at h
      obtain ⟨j, hj1, hj2, hj3, hj4⟩ := ih e h
      refine ⟨j + 1, by simpa using hj1, ?_, ?_, ?_⟩
      · intro k hk e2 hke
        cases k with
        | zero =>
          simp at hke
          subst hke
          exact hn
        | succ k2 =>
          exact hj2 k2 (by omega) e2 (by simpa using hke)
      · simpa [setPoseFirst, hn] using hj3
      · intro k hk
        cases k with
        | zero => simp [setPoseFirst, hn]
        | succ k2 =>
          simpa [setPoseFirst, hn] using hj4 k2 (by omega)

theorem processPoseEntry_models (st : SMState) (entry : PoseEntry) :
    (processPoseEntry st entry).models = st.models := by
  rcases h : getByName st.sceneEntities entry.name with _ | e <;>
    simp [processPoseEntry, h]

theorem handlePoseMsg_models :
    ∀ (msg : List PoseEntry) (st : SMState),
      (handlePoseMsg st msg).models = st.models := by
  intro msg
  induction msg with
  | nil => intro st; rfl
  | cons p ps ih =>
    intro st
    show (handlePoseMsg (processPoseEntry st p) ps).models = st.models
    rw [ih, processPoseEntry_models]

/-- C3: the dynamic_pose topic handler sets the pose of the first scene
entity whose name matches each pose entry, and for an unknown name it
modifies nothing (it never fails); the models list is never touched. -/
theorem poseTopic_handler_safe (st : SMState) (entry : PoseEntry) :
    (getByName st.sceneEntities entry.name = none →
      processPoseEntry st entry = st)
    ∧ (getByName st.sceneEntities entry.name = none ↔
        ∀ e ∈ st.sceneEntities, e.name ≠ entry.name)
    ∧ (∀ e : Entity, getByName st.sceneEntities entry.name = some e →
        (processPoseEntry st entry).models = st.models
        ∧ ∃ j : Nat, st.sceneEntities[j]? = some e
            ∧ (∀ k, k < j → ∀ e2, st.sceneEntities[k]? = some e2 →
                e2.name ≠ entry.name)
            ∧ (processPoseEntry st entry).sceneEntities[j]? =
                some { e with pose := ⟨entry.position, entry.orientation⟩ }
            ∧ ∀ k, k ≠ j →
                (processPoseEntry st entry).sceneEntities[k]? =
                  st.sceneEntities[k]?)
    ∧ (∀ msg : List PoseEntry, (handlePoseMsg st msg).models = st.models) := by
  refine ⟨?_, ?_, ?_, fun msg => handlePoseMsg_models msg st⟩
  · intro h
    simp [processPoseEntry, h]
  · simp [getByName, List.find?_eq_none]
  · intro e he
    obtain ⟨j, h1, h2, h3, h4⟩ :=
      find_setPoseFirst entry.name entry.position entry.orientation
        st.sceneEntities e he
    refine ⟨processPoseEntry_models st entry, j, h1, h2, ?_, ?_⟩
    · simpa [processPoseEntry, he] using h3
    · intro k hk
      simpa [processPoseEntry, he] using h4 k hk

/-- Witness for C3 at a concrete state: a pose entry naming an entity not
in the scene leaves the state exactly unchanged. -/
theorem poseTopic_handler_safe_witness :
    processPoseEntry
        { initialState "w" with
          sceneEntities := [⟨"box", ⟨⟨0, 0, 0⟩, ⟨0, 0, 0, 1⟩⟩⟩] }
        ⟨"sphere", ⟨1, 2, 3⟩, ⟨0, 0, 0, 1⟩⟩ =
      { initialState "w" with
        sceneEntities := [⟨"box", ⟨⟨0, 0, 0⟩, ⟨0, 0, 0, 1⟩⟩⟩] } :=
  (poseTopic_handler_safe _ _).1 (by rfl)

theorem onStatus_running (st : SMState) (r : String) :
    (onStatus st r).running = st.running := by
  rcases hcfg : st.advertiseCfg with _ | ⟨t, m⟩ <;>
    by_cases h1 : r = "connected" <;> by_cases h2 : r = "ready" <;>
      simp [onStatus, hcfg, h1, h2]

theorem processSceneTopicModel_running (sp : Spawner) (st : SMState)
    (model : Model) :
    (processSceneTopicModel sp st model).running = st.running := by
  by_cases h : getModelIndex st.models model.name < 0 <;>
    simp [processSceneTopicModel, h]

theorem handleSceneTopicMsg_running (sp : Spawner) (st : SMState)
    (msg : Option SceneInfoMsg) :
    (handleSceneTopicMsg sp st msg).running = st.running := by
  cases msg with
  | none => rfl
  | some info =>
    show ((info.models.foldl (processSceneTopicModel sp) st)).running = st.running
    induction info.models generalizing st with
    | nil => rfl
    | cons m ms ih =>
      show ((ms.foldl (processSceneTopicModel sp)
        (processSceneTopicModel sp st m))).running = st.running
      rw [ih, processSceneTopicModel_running]

theorem processPoseEntry_running (st : SMState) (entry : PoseEntry) :
    (processPoseEntry st entry).running = st.running := by
  rcases h : getByName st.sceneEntities entry.name with _ | e <;>
    simp [processPoseEntry, h]

theorem handlePoseMsg_running :
    ∀ (msg : List PoseEntry) (st : SMState),
      (handlePoseMsg st msg).running = st.running := by
  intro msg
  induction msg with
  | nil => intro st; rfl
  | cons p ps ih =>
    intro st
    show (handlePoseMsg (processPoseEntry st p) ps).running = st.running
    rw [ih, processPoseEntry_running]

theorem step_running_of_not_sceneInfo (sp : Spawner) (st : SMState)
    (a : Action) (h : ∀ m, a ≠ Action.sceneInfoMsg (some m)) :
    (step sp st a).running = st.running := by
  cases a with
  | connectAct url key => simp [step, connect]
  | disconnectAct => simp [step, disconnect]
  | statusMsg r =>
    simp only [step]
    split
    · exact onStatus_running st r
    · rfl
  | sceneInfoMsg m =>
    cases m with
    | none =>
      simp only [step]
      split
      · rfl
      · rfl
    | some info => exact absurd rfl (h info)
  | sceneTopicMsg m =>
    simp only [step]
    split
    · exact handleSceneTopicMsg_running sp st m
    · rfl
  | poseTopicMsg m =>
    simp only [step]
    split
    · exact handlePoseMsg_running m st
    · rfl

theorem runTrace_running_false (sp : Spawner) :
    ∀ (as : List Action) (st : SMState), st.running = false →
      (∀ m, Action.sceneInfoMsg (some m) ∉ as) →
      (runTrace sp st as).running = false := by
  intro as
  induction as with
  | nil => intro st h _; exact h
  | cons a as2 ih =>
    intro st h hall
    have ha : ∀ m, a ≠ Action.sceneInfoMsg (some m) := by
      intro m he
      subst he
      exact hall m (List.mem_cons_self _ _)
    have h1 : (step sp st a).running = false := by
      rw [step_running_of_not_sceneInfo sp st a ha]
      exact h
    have h2 : ∀ m, Action.sceneInfoMsg (some m) ∉ as2 :=
      fun m hm => hall m (List.mem_cons_of_mem a hm)
    show (runTrace sp (step sp st a) as2).running = false
    exact ih (step sp st a) h1 h2

/-- C7: the render loop is driven by network events: it is off at
construction, no event other than a non-null scene-info message ever
changes it, the sceneInfo handler starts it exactly when its subscription
(installed by connect) is live and the message is non-null, and along any
trace without a non-null scene-info message it never runs. -/
theorem render_loop_event_driven (sp : Spawner) :
    (∀ w, (initialState w).running = false)
    ∧ (∀ (st : SMState) (a : Action),
        (∀ m, a ≠ Action.sceneInfoMsg (some m)) →
        (step sp st a).running = st.running)
    ∧ (∀ (st : SMState) (m : SceneInfoMsg), st.sceneInfoSubscribed = true →
        (step sp st (.sceneInfoMsg (some m))).running = true)
    ∧ (∀ (st : SMState) (m : SceneInfoMsg), st.sceneInfoSubscribed = false →
        (step sp st (.sceneInfoMsg (some m))).running = st.running)
    ∧ (∀ (w : String) (as : List Action),
        (∀ m, Action.sceneInfoMsg (some m) ∉ as) →
        (runTrace sp (initialState w) as).running = false) := by
  refine ⟨fun w => rfl, step_running_of_not_sceneInfo sp, ?_, ?_, ?_⟩
  · intro st m h
    simp [step, h, handleSceneInfoMsg]
  · intro st m h
    simp [step, h]
  · intro w as h
    exact runTrace_running_false sp as (initialState w) rfl h

/-- Witness for C7 at concrete traces: connecting and reaching status
'ready' leaves the loop off; the first non-null scene-info message after
connect turns it on. -/
theorem render_loop_event_driven_witness :
    (runTrace defaultSpawner (initialState "w")
      [.connectAct "u" none, .statusMsg "connected", .statusMsg "ready"]).running
        = false
    ∧ (step defaultSpawner (connect (initialState "w") "u" none)
        (.sceneInfoMsg (some ⟨[], []⟩))).running = true := by
  constructor
  · exact (render_loop_event_driven defaultSpawner).2.2.2.2 "w" _
      (by intro m hm; simp at hm)
  · exact (render_loop_event_driven defaultSpawner).2.2.1 _ ⟨[], []⟩ rfl

theorem idx64_chr64 : ∀ s : Nat, s < 64 → idx64 (chr64 s) = some s := by
  decide

theorem chr64_ne_pad : ∀ s : Nat, s < 64 → chr64 s ≠ '=' := by
  decide

theorem b64_roundtrip : ∀ bytes : List Nat, (∀ b ∈ bytes, b < 256) →
    b64DecodeChars (b64EncodeBytes bytes) = some bytes := by
  intro bytes
  induction bytes using b64EncodeBytes.induct with
  | case1 =>
    intro _
    simp [b64EncodeBytes, b64DecodeChars]
  | case2 b0 =>
    intro h
    have hb0 : b0 < 256 := h b0 (by simp)
    have h1 : idx64 (chr64 (b0 / 4)) = some (b0 / 4) :=
      idx64_chr64 _ (by omega)
    have h2 : idx64 (chr64 (b0 % 4 * 16)) = some (b0 % 4 * 16) :=
      idx64_chr64 _ (by omega)
    simp [b64EncodeBytes, b64DecodeChars, h1, h2]
    omega
  | case3 b0 b1 =>
    intro h
    have hb0 : b0 < 256 := h b0 (by simp)
    have hb1 : b1 < 256 := h b1 (by simp)
    have h1 : idx64 (chr64 (b0 / 4)) = some (b0 / 4) :=
      idx64_chr64 _ (by omega)
    have h2 : idx64 (chr64 (b0 % 4 * 16 + b1 / 16)) =
        some (b0 % 4 * 16 + b1 / 16) :=
      idx64_chr64 _ (by omega)
    have h3 : idx64 (chr64 (b1 % 16 * 4)) = some (b1 % 16 * 4) :=
      idx64_chr64 _ (by omega)
    have hne : chr64 (b1 % 16 * 4) ≠ '=' := chr64_ne_pad _ (by omega)
    have ha1 : b0 / 4 * 4 + (b0 % 4 * 16 + b1 / 16) / 16 = b0 := by omega
    simp [b64EncodeBytes, b64DecodeChars, h1, h2, h3, hne, ha1]
    omega
  | case4 b0 b1 b2 rest ih =>
    intro h
    have hb0 : b0 < 256 := h b0 (by simp)
    have hb1 : b1 < 256 := h b1 (by simp)
    have hb2 : b2 < 256 := h b2 (by simp)
    have hrest : ∀ b ∈ rest, b < 256 := fun b hb => h b (by simp [hb])
    have h1 : idx64 (chr64 (b0 / 4)) = some (b0 / 4) :=
      idx64_chr64 _ (by omega)
    have h2 : idx64 (chr64 (b0 % 4 * 16 + b1 / 16)) =
        some (b0 % 4 * 16 + b1 / 16) :=
      idx64_chr64 _ (by omega)
    have h3 : idx64 (chr64 (b1 % 16 * 4 + b2 / 64)) =
        some (b1 % 16 * 4 + b2 / 64) :=
      idx64_chr64 _ (by omega)
    have h4 : idx64 (chr64 (b2 % 64)) = some (b2 % 64) :=
      idx64_chr64 _ (by omega)
    have hne2 : chr64 (b1 % 16 * 4 + b2 / 64) ≠ '=' :=
      chr64_ne_pad _ (by omega)
    have hne3 : chr64 (b2 % 64) ≠ '=' := chr64_ne_pad _ (by omega)
    have ha1 : b0 / 4 * 4 + (b0 % 4 * 16 + b1 / 16) / 16 = b0 := by omega
    have ha2 : (b0 % 4 * 16 + b1 / 16) % 16 * 16 +
        (b1 % 16 * 4 + b2 / 64) / 4 = b1 := by omega
    have ha3 : (b1 % 16 * 4 + b2 / 64) % 4 * 64 + b2 % 64 = b2 := by omega
    simp [b64EncodeBytes, b64DecodeChars, h1, h2, h3, h4, hne2, hne3,
      ha1, ha2, ha3, ih hrest]

/-- C8: binaryToBase64 base64-encodes exactly the bytes of its argument in
order: standard base64 decoding of the returned string yields the input
bytes, and the empty array maps to the empty string. -/
theorem binaryToBase64_roundtrip (buffer : List Nat)
    (h : ∀ b ∈ buffer, b < 256) :
    base64Decode (binaryToBase64 buffer) = some buffer
    ∧ binaryToBase64 [] = "" :=
  ⟨b64_roundtrip buffer h, rfl⟩

/-- Witness for C8 at a concrete buffer. -/
theorem binaryToBase64_roundtrip_witness :
    base64Decode (binaryToBase64 [72, 105, 33, 0, 255]) =
      some [72, 105, 33, 0, 255] :=
  (binaryToBase64_roundtrip [72, 105, 33, 0, 255] (by decide)).1

theorem sizeAllObjs_mem_le (cs : List Obj3D) :
    ∀ c ∈ cs, Obj3D.size c ≤ sizeAllObjs cs := by
  induction cs with
  | nil => intro c hc; simp at hc
  | cons hd rest ih =>
    intro c hc
    rcases List.mem_cons.mp hc with h | h
    · subst h
      simp only [sizeAllObjs]
      omega
    · have := ih c h
      simp only [sizeAllObjs]
      omega

theorem traverseAll_mem (d : Obj3D) :
    ∀ cs : List Obj3D, d ∈ traverseAll cs →
      ∃ c ∈ cs, d ∈ Obj3D.traverseList c := by
  intro cs
  induction cs with
  | nil => intro h; simp [traverseAll] at h
  | cons hd rest ih =>
    intro h
    simp only [traverseAll] at h
    rcases List.mem_append.mp h with h | h
    · exact ⟨hd, List.mem_cons_self _ _, h⟩
    · obtain ⟨c, hc, hdc⟩ := ih h
      exact ⟨c, List.mem_cons_of_mem _ hc, hdc⟩

theorem traverseList_size_le :
    ∀ (n : Nat) (o : Obj3D), Obj3D.size o ≤ n →
      ∀ d ∈ Obj3D.traverseList o, Obj3D.size d ≤ Obj3D.size o := by
  intro n
  induction n with
  | zero =>
    intro o h
    cases o with
    | node nm cs =>
      simp only [Obj3D.size] at h
      omega
  | succ n2 ih =>
    intro o h d hd
    cases o with
    | node nm cs =>
      simp only [Obj3D.traverseList] at hd
      rcases List.mem_cons.mp hd with h1 | h1
      · subst h1
        exact le_refl _
      · obtain ⟨c, hc, hdc⟩ := traverseAll_mem d cs h1
        have hcs : Obj3D.size c ≤ sizeAllObjs cs := sizeAllObjs_mem_le cs c hc
        have hlt : Obj3D.size c ≤ n2 := by
          simp only [Obj3D.size] at h
          omega
        have hdle := ih c hlt d hdc
        simp only [Obj3D.size]
        omega

theorem properDescendants_size_lt (o : Obj3D) :
    ∀ d ∈ properDescendants o, Obj3D.size d < Obj3D.size o := by
  cases o with
  | node nm cs =>
    intro d hd
    simp only [properDescendants] at hd
    obtain ⟨c, hc, hdc⟩ := traverseAll_mem d cs hd
    have h1 := traverseList_size_le (Obj3D.size c) c (le_refl _) d hdc
    have h2 := sizeAllObjs_mem_le cs c hc
    simp only [Obj3D.size]
    omega

theorem not_self_mem_properDescendants (o : Obj3D) :
    o ∉ properDescendants o := by
  intro h
  exact absurd (properDescendants_size_lt o o h) (lt_irrefl _)

theorem foldl_push_all_ne (obj : Obj3D) :
    ∀ (l acc : List Obj3D), (∀ d ∈ l, d ≠ obj) →
      l.foldl (fun a c => if c ≠ obj then a ++ [c] else a) acc = acc ++ l := by
  intro l
  induction l with
  | nil => intro acc _; simp
  | cons hd rest ih =>
    intro acc h
    have hhd : hd ≠ obj := h hd (List.mem_cons_self _ _)
    have hrest : ∀ d ∈ rest, d ≠ obj :=
      fun d hd2 => h d (List.mem_cons_of_mem _ hd2)
    simp only [List.foldl_cons, if_pos hhd]
    rw [ih (acc ++ [hd]) hrest]
    simp

theorem getDescendants_append (obj : Obj3D) :
    ∀ array : List Obj3D,
      getDescendants obj array = array ++ properDescendants obj := by
  cases obj with
  | node nm cs =>
    intro arr
    have hall : ∀ d ∈ traverseAll cs, d ≠ Obj3D.node nm cs := by
      intro d hd heq
      have hlt := properDescendants_size_lt (Obj3D.node nm cs) d
        (by simpa [properDescendants] using hd)
      rw [heq] at hlt
      exact absurd hlt (lt_irrefl _)
    rw [getDescendants]
    simp only [Obj3D.traverseList, List.foldl_cons]
    rw [if_neg (not_not_intro rfl)]
    rw [foldl_push_all_ne (Obj3D.node nm cs) (traverseAll cs) arr hall]
    simp only [properDescendants]

/-- C9: getDescendants appends exactly the proper descendants of the
object, in traversal order, to the given array; the object itself is never
part of the appended portion, and with the default empty array the result
is exactly the proper descendants. -/
theorem getDescendants_spec (obj : Obj3D) (array : List Obj3D) :
    getDescendants obj array = array ++ properDescendants obj
    ∧ obj ∉ properDescendants obj
    ∧ getDescendants obj [] = properDescendants obj := by
  refine ⟨getDescendants_append obj array, not_self_mem_properDescendants obj, ?_⟩
  rw [getDescendants_append obj [], List.nil_append]

/-- Witness for C9 at a concrete tree with two children. -/
theorem getDescendants_spec_witness :
    getDescendants (Obj3D.node "root" [Obj3D.node "a" [], Obj3D.node "b" []])
        [Obj3D.node "x" []] =
      [Obj3D.node "x" [], Obj3D.node "a" [], Obj3D.node "b" []] := by
  have h := (getDescendants_spec
      (Obj3D.node "root" [Obj3D.node "a" [], Obj3D.node "b" []])
      [Obj3D.node "x" []]).1
  rw [h]
  simp [properDescendants, traverseAll, Obj3D.traverseList]

end Gz3d
